import Mathlib

set_option maxRecDepth 100000

/-!
# Verification of the My02_Re rhythm game core

Shallow embedding of the two core subsystems of the repository:

* the Timeline Compiler (`BMSParser.parse` in `src/unnamed/part_000`),
  modelled from the structured data produced by its header/grid
  tokenization step (headers, measure table, bpm/stop definition tables)
  through time integration and event materialization; and
* the Judgment Engine (`RhythmGame` in `src/game.js`): `checkHit`,
  `triggerHit`, `triggerMiss`, the per-tick miss sweep in `update`, and the
  lane-remapping pass in `start`.

Modelling conventions:

* JavaScript numbers are modelled as rationals (`ℚ`).  All the scenarios
  exercised here use values on which double arithmetic is exact, so the
  rational model agrees with the source; NaN propagation from malformed
  numerals is outside the model (the helper parsers return `Option` and the
  few call sites that would produce NaN in JS are noted in comments).
* Data strings are assumed to have even length (a documented invariant of
  the chart format); the fractional step count JS computes for odd-length
  strings is not modelled.
* `Array.prototype.sort` in the source's runtime is stable; sorting is
  modelled by a stable insertion sort (`sortByKey`).
* Per-note mutable runtime state (`hit` / `missed` / `isHolding`) is carried
  in the `RNote` structure; the write-only `hitTime` field is omitted.
-/

namespace My02

/-- Judgment tiers of `checkHit` in `src/game.js`. -/
inductive Judge where
  | COOL
  | GOOD
  | BAD
  | MISS
  deriving DecidableEq, Repr

/-- Note kinds produced by the compiler (`type` field: `'tap'` / `'ln'`). -/
inductive NoteType where
  | tap
  | ln
  deriving DecidableEq, Repr

/-- A compiled note: `{ time, lane, type, duration }` pushed by
`BMSParser.parse`. -/
structure Note where
  time : ℚ
  lane : ℕ
  type : NoteType
  duration : ℚ
  deriving DecidableEq, Repr

/-- A background-audio cue `{ time, id }`. -/
structure BGMEvent where
  time : ℚ
  id : String
  deriving DecidableEq, Repr

/-- A tempo timeline marker `{ time, bpm }`. -/
structure BpmPoint where
  time : ℚ
  bpm : ℚ
  deriving DecidableEq, Repr

/-- A stop marker `{ time, duration }` (duration in seconds). -/
structure StopEv where
  time : ℚ
  duration : ℚ
  deriving DecidableEq, Repr

/-- Performance State: the `stats` object of `RhythmGame`. -/
structure Stats where
  combo : ℕ
  score : ℤ
  cool : ℕ
  good : ℕ
  bad : ℕ
  miss : ℕ
  maxCombo : ℕ
  comboBonus : ℤ
  hp : ℚ
  deriving DecidableEq, Repr

/-- The reset value assigned in `RhythmGame.start`:
`{ combo: 0, score: 0, cool: 0, good: 0, bad: 0, miss: 0, maxCombo: 0,
comboBonus: 0, hp: 100 }`. -/
def initStats : Stats :=
  { combo := 0, score := 0, cool := 0, good := 0, bad := 0, miss := 0
    maxCombo := 0, comboBonus := 0, hp := 100 }

/-- A runtime note: a compiled note plus the mutable judgment flags attached
in `RhythmGame.start` (`hit: false, missed: false, isHolding: false`). -/
structure RNote where
  time : ℚ
  lane : ℕ
  type : NoteType
  duration : ℚ
  hit : Bool
  missed : Bool
  isHolding : Bool
  deriving DecidableEq, Repr

/-- The combo block of `RhythmGame.triggerHit` (src/game.js:855-862):
BAD resets combo and comboBonus; otherwise combo increments, maxCombo is
raised when exceeded, and every 25th combo adds 10 to comboBonus. -/
def applyCombo (judge : Judge) (s : Stats) : Stats :=
  if judge = Judge.BAD then
    { s with combo := 0, comboBonus := 0 }
  else
    let combo := s.combo + 1
    let s' := { s with combo := combo
                       maxCombo := if combo > s.maxCombo then combo else s.maxCombo }
    if combo > 0 ∧ combo % 25 = 0 then { s' with comboBonus := s'.comboBonus + 10 } else s'

/-- The score block of `triggerHit` (src/game.js:864-867): comboBonus is
added only for the two higher tiers; BAD adds a flat 10. -/
def applyScore (judge : Judge) (s : Stats) : Stats :=
  let bonus : ℤ := if judge = Judge.COOL ∨ judge = Judge.GOOD then s.comboBonus else 0
  let s2 := if judge = Judge.COOL then { s with score := s.score + 100 + bonus } else s
  let s3 := if judge = Judge.GOOD then { s2 with score := s2.score + 80 + bonus } else s2
  if judge = Judge.BAD then { s3 with score := s3.score + 10 } else s3

/-- The per-tier counter block of `triggerHit` (src/game.js:868-870). -/
def applyCounters (judge : Judge) (s : Stats) : Stats :=
  match judge with
  | Judge.COOL => { s with cool := s.cool + 1 }
  | Judge.GOOD => { s with good := s.good + 1 }
  | Judge.BAD => { s with bad := s.bad + 1 }
  | Judge.MISS => s

/-- The health block of `triggerHit` (src/game.js:871-874): recovery for
the two higher tiers, no change for BAD, then the `[0,100]` clamp. -/
def applyHp (judge : Judge) (s : Stats) : Stats :=
  let s6 :=
    match judge with
    | Judge.COOL => { s with hp := s.hp + 2 }
    | Judge.GOOD => { s with hp := s.hp + 3/2 }
    | _ => s
  { s6 with hp := max 0 (min 100 s6.hp) }

/-- The shared tail of `triggerHit` and `triggerMiss`
(src/game.js:875-883 and 898-905): the early fail return when hp reached 0
— which skips the score floor — followed by the `score < 0` floor. -/
def finalizeStats (s : Stats) : Stats :=
  if s.hp ≤ 0 then s
  else if s.score < 0 then { s with score := 0 } else s

/-- The source method `RhythmGame.triggerHit` (src/game.js:854-888), restricted to its effect
on `stats`; the DOM/HUD/effect calls carry no engine state.  The statement
sequence of the source is the composition of the four blocks above followed
by the shared tail. -/
def triggerHitStats (judge : Judge) (s : Stats) : Stats :=
  finalizeStats (applyHp judge (applyCounters judge (applyScore judge (applyCombo judge s))))

/-- The mutation block of `RhythmGame.triggerMiss` (src/game.js:892-897):
combo and comboBonus reset, miss counter increment, flat score and hp
penalties, hp clamped to `[0,100]`. -/
def applyMiss (s : Stats) : Stats :=
  let s1 := { s with combo := 0, miss := s.miss + 1, comboBonus := 0
                     score := s.score - 20, hp := s.hp - 4 }
  { s1 with hp := max 0 (min 100 s1.hp) }

/-- The source method `RhythmGame.triggerMiss` (src/game.js:890-908), restricted to its effect
on `stats` (the `note.missed = true` write is performed by the callers in
this model).  As in the source, the `score < 0` floor comes after the early
fail return and is therefore skipped when the miss drives `hp` to 0. -/
def triggerMissStats (s : Stats) : Stats :=
  finalizeStats (applyMiss s)

/-- The tier classification chain of `checkHit` over the millisecond offset
`m = (currentTime - target.time) * 1000`.  The two terminal `else` branches
of the source both yield `'MISS'`. -/
def judgeOf (m : ℚ) : Judge :=
  if -50 ≤ m ∧ m ≤ 50 then Judge.COOL
  else if (51 ≤ m ∧ m ≤ 85) ∨ (-85 ≤ m ∧ m ≤ -51) then Judge.GOOD
  else if (86 ≤ m ∧ m ≤ 108) ∨ (-108 ≤ m ∧ m ≤ -86) then Judge.BAD
  else Judge.MISS

/-- Candidate filter of `checkHit`: same lane, not yet hit or missed, and
within the ±150 ms judge window. -/
def eligB (t : ℚ) (lane : ℕ) (n : RNote) : Bool :=
  n.lane = lane && !n.hit && !n.missed && decide (|n.time - t| < 3/20)

/-- Pair each element with its position (the `this.runtimeNotes` index). -/
def enumFrom {α : Type} (k : ℕ) : List α → List (ℕ × α)
  | [] => []
  | a :: as => (k, a) :: enumFrom (k + 1) as

/-- Target selection `candidates.sort(by |time - t|)[0]`: the sort is stable, so taking the
first element is the same as keeping the earliest note among those with the
strictly smallest absolute offset. -/
def pickClosest (t : ℚ) : List (ℕ × RNote) → Option (ℕ × RNote)
  | [] => none
  | c :: cs =>
      some (cs.foldl (fun best c2 =>
        if |c2.2.time - t| < |best.2.time - t| then c2 else best) c)

/-- The source method `RhythmGame.checkHit` (src/game.js:799-852) as a function of the clock
reading `t`, the pressed `lane`, and the engine state
`(runtimeNotes, stats)`. -/
def checkHit (t : ℚ) (lane : ℕ) (g : List RNote × Stats) : List RNote × Stats :=
  let notes := g.1
  let stats := g.2
  let cands := (enumFrom 0 notes).filter (fun p => eligB t lane p.2)
  match pickClosest t cands with
  | none => g
  | some (i, target) =>
      let m := (t - target.time) * 1000
      let judge := judgeOf m
      if judge ≠ Judge.MISS then
        match target.type with
        | NoteType.tap => (notes.set i { target with hit := true }, triggerHitStats judge stats)
        | NoteType.ln => (notes.set i { target with isHolding := true }, triggerHitStats judge stats)
      else
        (notes.set i { target with missed := true }, triggerMissStats stats)

/-- The body of the per-note loop of `RhythmGame.update`
(src/game.js:516-646) restricted to state-bearing effects: the autoDemo
auto-play branch, the holding-LN auto-complete, and the miss-aging check.
Rendering statements carry no engine state. -/
def updateNote (autoDemo : Bool) (t : ℚ) (note : RNote) (stats : Stats) : RNote × Stats :=
  let auto :=
    if autoDemo && !note.hit && !note.missed then
      match note.type with
      | NoteType.ln =>
          if !note.isHolding && decide (note.time ≤ t) then
            ({ note with isHolding := true }, triggerHitStats Judge.COOL stats, false)
          else (note, stats, false)
      | NoteType.tap =>
          if |note.time - t| ≤ 3/100 then
            ({ note with hit := true }, triggerHitStats Judge.COOL stats, true)
          else (note, stats, false)
    else (note, stats, false)
  let note := auto.1
  let stats := auto.2.1
  if auto.2.2 then (note, stats)
  else if note.type = NoteType.ln ∧ note.isHolding ∧ ¬note.hit ∧ ¬note.missed then
    if note.time + note.duration ≤ t then
      ({ note with hit := true, isHolding := false }, triggerHitStats Judge.COOL stats)
    else (note, stats)
  else if note.hit then (note, stats)
  else if note.time - t < -(3/20) ∧ ¬note.hit ∧ ¬note.missed ∧
      (note.type = NoteType.tap ∨ (note.type = NoteType.ln ∧ ¬note.isHolding)) then
    ({ note with missed := true }, triggerMissStats stats)
  else (note, stats)

/-- The `for (const note of this.runtimeNotes)` sweep of `update`, threading
`stats` through the notes in list order. -/
def updateNotes (autoDemo : Bool) (t : ℚ) : List RNote → Stats → List RNote × Stats
  | [], s => ([], s)
  | n :: ns, s =>
      let p := updateNote autoDemo t n s
      let rest := updateNotes autoDemo t ns p.2
      (p.1 :: rest.1, rest.2)

/-- One rendering tick: `RhythmGame.update` at clock reading `t` (with the
session playing). -/
def updateTick (autoDemo : Bool) (t : ℚ) (g : List RNote × Stats) : List RNote × Stats :=
  updateNotes autoDemo t g.1 g.2

/-- A sequence of rendering ticks. -/
def runTicks (autoDemo : Bool) (ts : List ℚ) (g : List RNote × Stats) : List RNote × Stats :=
  ts.foldl (fun g t => updateTick autoDemo t g) g

/-- The per-note lane rewrite of `RhythmGame.start` (src/game.js:367-386):
two sequential `if` statements remapping lane 4 (and lane 5) down to 3 when
the lower lanes are unused, followed by the attachment of the fresh runtime
flags.  `used` is membership in the `usedLanes` set computed from the
compiled notes. -/
def remapNote (used : ℕ → Bool) (n : Note) : RNote :=
  let lane0 := n.lane
  let lane1 := if lane0 = 4 ∧ used 3 = false then 3 else lane0
  let lane2 := if lane1 = 5 ∧ used 3 = false ∧ used 4 = false then 3 else lane1
  { time := n.time, lane := lane2, type := n.type, duration := n.duration
    hit := false, missed := false, isHolding := false }

/-- The assignment `this.runtimeNotes = chart.notes.map(...).filter(n => n.lane < 4)` in
`RhythmGame.start` (src/game.js:362-387). -/
def prepareRuntimeNotes (chartNotes : List Note) : List RNote :=
  let used := fun k => chartNotes.any (fun n => n.lane = k)
  ((chartNotes.map (remapNote used)).filter (fun n => n.lane < 4))

/-- The lane policy of claim C10, written from its words: a compiled lane
0-3 is kept as is; lane 4 is kept (as 3) only when no compiled note uses
lane 3; lane 5 is kept (as 3) only when no compiled note uses lane 3 or 4;
every other lane is dropped. -/
def runtimeLaneSpec (used3 used4 : Bool) (lane : ℕ) : Option ℕ :=
  if lane ≤ 3 then some lane
  else if lane = 4 ∧ used3 = false then some 3
  else if lane = 5 ∧ used3 = false ∧ used4 = false then some 3
  else none

/-- The runtime note set described by claim C10, built with
`runtimeLaneSpec` instead of the source's map-then-filter. -/
def prepareRuntimeNotesSpec (chartNotes : List Note) : List RNote :=
  let used3 := chartNotes.any (fun n => n.lane = 3)
  let used4 := chartNotes.any (fun n => n.lane = 4)
  chartNotes.filterMap fun n =>
    (runtimeLaneSpec used3 used4 n.lane).map fun l =>
      { time := n.time, lane := l, type := n.type, duration := n.duration
        hit := false, missed := false, isHolding := false }

/-! ## Timeline Compiler (`BMSParser.parse`, src/unnamed/part_000)

The embedding starts from the structured representation produced by the
header/grid tokenization (step 1 of `parse`): a header map, the measure
table, and the `#BPMxx` / `#STOPxx` definition tables (already parsed to
numbers, exactly as step 1 stores them).  The `#WAVxx` / `#BMPxx` tables are
not consumed by the compile steps and are omitted. -/

/-- A tempo/stop `TimeEvent` of the grid scan. -/
inductive TEKind where
  | bpm
  | stop
  deriving DecidableEq, Repr

structure TimeEvent where
  beat : ℚ
  kind : TEKind
  value : ℚ
  deriving DecidableEq, Repr

/-- A note/background `ChannelEvent` of the grid scan.  The `lane` field is
unused for `bgm` events (the source leaves it `undefined`); it is 0 here
and never read on that branch. -/
inductive CEKind where
  | note
  | ln
  | bgm
  deriving DecidableEq, Repr

structure ChannelEvent where
  beat : ℚ
  kind : CEKind
  lane : ℕ
  valStr : String
  deriving DecidableEq, Repr

/-- One event produced by a single grid step (each step pushes into at most
one of the two event arrays). -/
inductive ScanEvent where
  | time (te : TimeEvent)
  | chan (ce : ChannelEvent)
  deriving DecidableEq, Repr

/-- Structured parser output at the step-1/step-2 boundary of
`BMSParser.parse`: raw headers, the measure table
(`measureIndex -> channel -> data`), and the two parsed definition tables. -/
structure BMSInput where
  headers : List (String × String)
  measures : List (ℕ × List (String × String))
  bpmDefs : List (String × ℚ)
  stopDefs : List (String × ℤ)
  deriving Repr

/-- Compiler output consumed by the game (title/artist string passthrough
omitted). -/
structure ChartOutput where
  notes : List Note
  bgmEvents : List BGMEvent
  bpms : List BpmPoint
  stops : List StopEv
  initialBPM : ℚ
  duration : ℚ
  deriving DecidableEq, Repr

/-- First binding of a key in an association list (`Map.get` / object
indexing in the source; keys are distinct there). -/
def assoc {α : Type} (l : List (String × α)) (k : String) : Option α :=
  (l.find? (fun p => p.1 = k)).map (fun p => p.2)

/-- Decimal digit value. -/
def digitVal (c : Char) : Option ℕ :=
  if '0' ≤ c ∧ c ≤ '9' then some (c.toNat - '0'.toNat) else none

/-- Longest digit prefix, as value and count of digits consumed. -/
def takeDigits : List Char → ℕ → ℕ → (ℕ × ℕ) × List Char
  | [], acc, cnt => ((acc, cnt), [])
  | c :: cs, acc, cnt =>
      match digitVal c with
      | some d => takeDigits cs (acc * 10 + d) (cnt + 1)
      | none => ((acc, cnt), c :: cs)

/-- JavaScript `parseFloat` on well-formed decimal numerals: optional sign, integer
part, optional fractional part; trailing junk is ignored, and `none` stands
for the NaN result on inputs with no leading digits.  Exponent notation is
not modelled (unused by the charts considered here). -/
def jsParseFloat (s : String) : Option ℚ :=
  let cs := s.toList
  let signed : Bool × List Char :=
    match cs with
    | '-' :: rest => (true, rest)
    | '+' :: rest => (false, rest)
    | _ => (false, cs)
  let ip := takeDigits signed.2 0 0
  let intPart := ip.1.1
  let intCnt := ip.1.2
  let frac : ℕ × ℕ :=
    match ip.2 with
    | '.' :: rest => ((takeDigits rest 0 0).1.1, (takeDigits rest 0 0).1.2)
    | _ => (0, 0)
  if intCnt = 0 ∧ frac.2 = 0 then none
  else
    let mag : ℚ := (intPart : ℚ) + (frac.1 : ℚ) / ((10 : ℚ) ^ frac.2)
    some (if signed.1 then -mag else mag)

/-- JavaScript `parseInt(s, 10)` on well-formed decimal numerals (`none` for NaN). -/
def jsParseInt (s : String) : Option ℤ :=
  let cs := s.toList
  let signed : Bool × List Char :=
    match cs with
    | '-' :: rest => (true, rest)
    | '+' :: rest => (false, rest)
    | _ => (false, cs)
  let ip := takeDigits signed.2 0 0
  if ip.1.2 = 0 then none
  else some (if signed.1 then -(ip.1.1 : ℤ) else (ip.1.1 : ℤ))

/-- Hexadecimal digit value. -/
def hexVal (c : Char) : Option ℕ :=
  if '0' ≤ c ∧ c ≤ '9' then some (c.toNat - '0'.toNat)
  else if 'a' ≤ c ∧ c ≤ 'f' then some (c.toNat - 'a'.toNat + 10)
  else if 'A' ≤ c ∧ c ≤ 'F' then some (c.toNat - 'A'.toNat + 10)
  else none

/-- Worker for `parseHex`: accumulate the longest valid hex prefix. -/
def parseHexGo : List Char → ℕ → ℕ → Option ℕ
  | [], acc, cnt => if cnt = 0 then none else some acc
  | c :: cs, acc, cnt =>
      match hexVal c with
      | some d => parseHexGo cs (acc * 16 + d) (cnt + 1)
      | none => if cnt = 0 then none else some acc

/-- Longest hex prefix for `parseInt(valStr, 16)` (`none` for NaN on an
empty prefix; the source would push the NaN into the event stream, which
the rational model cannot represent, so such events are dropped here). -/
def parseHex (s : String) : Option ℕ :=
  parseHexGo s.toList 0 0

/-- The tap-note channel mapping (src/unnamed/part_000:167-184):
`11,12,13 -> 0,1,2`, `16 -> 3`, `17,18,19 -> 4,5,6`; channels 14 and 15 are
left at `-1` and filtered out, modelled by `none`. -/
def noteLane (ch : String) : Option ℕ :=
  if ch = "11" then some 0
  else if ch = "12" then some 1
  else if ch = "13" then some 2
  else if ch = "16" then some 3
  else if ch = "17" then some 4
  else if ch = "18" then some 5
  else if ch = "19" then some 6
  else none

/-- The long-note channel mapping (src/unnamed/part_000:186-201):
`51,52,53 -> 0,1,2`, `56 -> 3`, `57,58,59 -> 4,5,6`; channels 54 and 55 are
left at `-1` and filtered out. -/
def lnLane (ch : String) : Option ℕ :=
  if ch = "51" then some 0
  else if ch = "52" then some 1
  else if ch = "53" then some 2
  else if ch = "56" then some 3
  else if ch = "57" then some 4
  else if ch = "58" then some 5
  else if ch = "59" then some 6
  else none

/-- Whether `ch` is one of the channel codes the null-symbol branch treats
as an LN channel: `['51','52','53','54'].includes(ch)`
(src/unnamed/part_000:104). -/
def isLNChannel (ch : String) : Bool :=
  ch = "51" || ch = "52" || ch = "53" || ch = "54"

/-- The lane `parseInt(ch) - 51` of the null-symbol branch; defined on the four
channels `isLNChannel` accepts. -/
def lane00 (ch : String) : ℕ :=
  if ch = "52" then 1 else if ch = "53" then 2 else if ch = "54" then 3 else 0

/-- One grid step of the scan loop (src/unnamed/part_000:100-202): the
two-character `valStr` of channel `ch` at absolute `beat`, classified into
at most one time/channel event. -/
def scanStep (lnType : ℤ) (bpmDefs : List (String × ℚ)) (stopDefs : List (String × ℤ))
    (ch valStr : String) (beat : ℚ) : Option ScanEvent :=
  if valStr = "00" then
    if isLNChannel ch ∧ lnType = 2 then
      some (ScanEvent.chan { beat := beat, kind := CEKind.ln, lane := lane00 ch, valStr := valStr })
    else none
  else if ch = "03" then
    (parseHex valStr).map (fun v => ScanEvent.time { beat := beat, kind := TEKind.bpm, value := (v : ℚ) })
  else if ch = "08" then
    (assoc bpmDefs valStr).map (fun v => ScanEvent.time { beat := beat, kind := TEKind.bpm, value := v })
  else if ch = "09" then
    (assoc stopDefs valStr).map (fun v => ScanEvent.time { beat := beat, kind := TEKind.stop, value := (v : ℚ) })
  else if ch = "01" then
    some (ScanEvent.chan { beat := beat, kind := CEKind.bgm, lane := 0, valStr := valStr })
  else
    match noteLane ch with
    | some l => some (ScanEvent.chan { beat := beat, kind := CEKind.note, lane := l, valStr := valStr })
    | none =>
        match lnLane ch with
        | some l => some (ScanEvent.chan { beat := beat, kind := CEKind.ln, lane := l, valStr := valStr })
        | none => none

/-- Split a data string into its two-character step symbols. -/
def chunkPairs : List Char → List String
  | a :: b :: rest => String.mk [a, b] :: chunkPairs rest
  | _ => []

/-- Scan the steps of one channel of one measure:
`beat = mStart + (i / steps) * mLen` with `steps = data.length / 2`. -/
def scanSteps (lnType : ℤ) (bpmDefs : List (String × ℚ)) (stopDefs : List (String × ℤ))
    (mStart mLen steps : ℚ) (ch : String) : ℕ → List String → List ScanEvent
  | _, [] => []
  | i, v :: vs =>
      let beat := mStart + ((i : ℚ) / steps) * mLen
      match scanStep lnType bpmDefs stopDefs ch v beat with
      | some e => e :: scanSteps lnType bpmDefs stopDefs mStart mLen steps ch (i + 1) vs
      | none => scanSteps lnType bpmDefs stopDefs mStart mLen steps ch (i + 1) vs

/-- The length scale of measure `i` (src/unnamed/part_000:74-77): channel
`'02'`, when present with a truthy (non-empty) data string, is `parseFloat`ed
and multiplies the default 4-beat measure.  A numeral the source would turn
into NaN falls back to 1 here (see module comment). -/
def measureScale (measures : List (ℕ × List (String × String))) (i : ℕ) : ℚ :=
  match (measures.find? (fun p => p.1 = i)).map (fun p => p.2) with
  | none => 1
  | some chans =>
      match assoc chans "02" with
      | none => 1
      | some d => if d = "" then 1 else (jsParseFloat d).getD 1

/-- Cumulative measure start beats (`measureStartBeats`):
`startBeat 0 = 0`, each measure adds `4.0 * scale`. -/
def startBeat (measures : List (ℕ × List (String × String))) : ℕ → ℚ
  | 0 => 0
  | i + 1 => startBeat measures i + 4 * measureScale measures i

/-- Stable insertion into a list sorted by a rational key: the new element
is placed before the first element of strictly larger-or-equal key only when
its key is strictly smaller or equal-and-later, i.e. after all elements with
a smaller-or-equal key already present.  `sortByKey` below is the stable
sort this induces, matching the source's stable `Array.prototype.sort` with
a numeric comparator. -/
def insertByKey {α : Type} (key : α → ℚ) (x : α) : List α → List α
  | [] => [x]
  | y :: ys => if key x ≤ key y then x :: y :: ys else y :: insertByKey key x ys

/-- Stable sort by a rational key. -/
def sortByKey {α : Type} (key : α → ℚ) (l : List α) : List α :=
  l.foldr (insertByKey key) []

/-- Insert a beat into a strictly ascending list, keeping it deduplicated:
the model of `Array.from(criticalBeats).sort(...)` for the `Set` of event
beats. -/
def insertBeatDedup (x : ℚ) : List ℚ → List ℚ
  | [] => [x]
  | y :: ys => if x = y then y :: ys else if x < y then x :: y :: ys else y :: insertBeatDedup x ys

/-- The sorted, deduplicated critical-beat sequence: beat 0 plus every
time-event and channel-event beat. -/
def sortedCriticalBeats (tes : List TimeEvent) (ces : List ChannelEvent) : List ℚ :=
  ((tes.map (fun e => e.beat)) ++ (ces.map (fun e => e.beat))).foldl
    (fun acc b => insertBeatDedup b acc) [0]

/-- The inner `while` of the integration loop
(src/unnamed/part_000:242-268): consume the leading time events whose beat
matches the current critical `beat` within 1e-6, updating the tempo and the
running clock, and recording BpmPoints and StopEvs.  `tAtBeat` is the value
`beatToTime.get(beat)` stored before the loop ran (the pre-stop arrival
time), which the source reads back when pushing a stop. -/
def applyTimeEvents (beat tAtBeat : ℚ) :
    List TimeEvent → ℚ → ℚ → List TimeEvent × ℚ × ℚ × List BpmPoint × List StopEv
  | [], bpm, t => ([], bpm, t, [], [])
  | te :: rest, bpm, t =>
      if |te.beat - beat| < 1/1000000 then
        match te.kind with
        | TEKind.bpm =>
            let r := applyTimeEvents beat tAtBeat rest te.value t
            (r.1, r.2.1, r.2.2.1, { time := t, bpm := te.value } :: r.2.2.2.1, r.2.2.2.2)
        | TEKind.stop =>
            let stopBeats := te.value / 48
            let stopTime := stopBeats * (60 / bpm)
            let r := applyTimeEvents beat tAtBeat rest bpm (t + stopTime)
            (r.1, r.2.1, r.2.2.1, r.2.2.2.1, { time := tAtBeat, duration := stopTime } :: r.2.2.2.2)
      else (te :: rest, bpm, t, [], [])

/-- Result of the time-integration walk (step 3 of `parse`). -/
structure IntegrationResult where
  beatToTime : List (ℚ × ℚ)
  bpms : List BpmPoint
  stops : List StopEv
  duration : ℚ
  deriving DecidableEq, Repr

/-- The integration walk over the critical beats
(src/unnamed/part_000:235-273): advance the clock by
`(beat - lastBeat) * 60 / currentBPM`, record `beatToTime`, then apply the
time events at this beat.  The final running clock is `this.duration`. -/
def integrateBeats : List ℚ → List TimeEvent → ℚ → ℚ → ℚ → IntegrationResult
  | [], _, _, _, lastTime => { beatToTime := [], bpms := [], stops := [], duration := lastTime }
  | beat :: bs, tes, bpm, lastBeat, lastTime =>
      let t1 := lastTime + (beat - lastBeat) * (60 / bpm)
      let r := applyTimeEvents beat t1 tes bpm t1
      let rest := integrateBeats bs r.1 r.2.1 beat r.2.2.1
      { beatToTime := (beat, t1) :: rest.beatToTime
        bpms := r.2.2.2.1 ++ rest.bpms
        stops := r.2.2.2.2 ++ rest.stops
        duration := rest.duration }

/-- Map lookups `beatToTime.get(beat)` during materialization.  Every beat
passed in by `parse` was inserted during integration; the `getD 0` default
is never reached there (in JS a missing key would yield `undefined`). -/
def lookupBeat (m : List (ℚ × ℚ)) (b : ℚ) : Option ℚ :=
  (m.find? (fun p => p.1 = b)).map (fun p => p.2)

/-- Time of a channel event under a beat-to-seconds map. -/
def evTime (m : List (ℚ × ℚ)) (e : ChannelEvent) : ℚ :=
  (lookupBeat m e.beat).getD 0

/-- Event materialization (step 4 of `parse`,
src/unnamed/part_000:275-359): walk the sorted channel events, emit tap
notes and BGM events immediately, and pair long-note events through the
per-lane `lnPending` slots.  A pending note still open when the walk ends is
discarded (never emitted). -/
def materialize (lnType : ℤ) (b2t : List (ℚ × ℚ)) :
    List ChannelEvent → (ℕ → Option Note) → List Note × List BGMEvent
  | [], _ => ([], [])
  | ev :: rest, pending =>
      let time := evTime b2t ev
      match ev.kind with
      | CEKind.note =>
          let r := materialize lnType b2t rest pending
          ({ time := time, lane := ev.lane, type := NoteType.tap, duration := 0 } :: r.1, r.2)
      | CEKind.bgm =>
          let r := materialize lnType b2t rest pending
          (r.1, { time := time, id := ev.valStr } :: r.2)
      | CEKind.ln =>
          if lnType = 2 then
            if ev.valStr = "00" then
              match pending ev.lane with
              | some startNote =>
                  let done := { startNote with duration := time - startNote.time }
                  let r := materialize lnType b2t rest
                    (fun l => if l = ev.lane then none else pending l)
                  (done :: r.1, r.2)
              | none => materialize lnType b2t rest pending
            else
              let opened : Note :=
                { time := time, lane := ev.lane, type := NoteType.ln, duration := 0 }
              match pending ev.lane with
              | some startNote =>
                  let done := { startNote with duration := time - startNote.time }
                  let r := materialize lnType b2t rest
                    (fun l => if l = ev.lane then some opened else pending l)
                  (done :: r.1, r.2)
              | none =>
                  materialize lnType b2t rest
                    (fun l => if l = ev.lane then some opened else pending l)
          else
            match pending ev.lane with
            | some startNote =>
                let done := { startNote with duration := time - startNote.time }
                let r := materialize lnType b2t rest
                  (fun l => if l = ev.lane then none else pending l)
                (done :: r.1, r.2)
            | none =>
                let opened : Note :=
                  { time := time, lane := ev.lane, type := NoteType.ln, duration := 0 }
                materialize lnType b2t rest
                  (fun l => if l = ev.lane then some opened else pending l)

/-- Project the time events out of the interleaved scan stream (the source
pushes into `timeEvents` and `channelEvents` during the same walk, so each
array holds its events in scan order). -/
def timeEventsOf (es : List ScanEvent) : List TimeEvent :=
  es.filterMap fun e => match e with
    | ScanEvent.time te => some te
    | ScanEvent.chan _ => none

/-- Project the channel events out of the interleaved scan stream. -/
def chanEventsOf (es : List ScanEvent) : List ChannelEvent :=
  es.filterMap fun e => match e with
    | ScanEvent.time _ => none
    | ScanEvent.chan ce => some ce

/-- Scan one measure: every channel's data string split into steps.  The
channel list is walked in the object-enumeration order of the source; only
stable-sort tie order depends on it. -/
def scanMeasure (lnType : ℤ) (bpmDefs : List (String × ℚ)) (stopDefs : List (String × ℤ))
    (measures : List (ℕ × List (String × String))) (mIdx : ℕ)
    (channels : List (String × String)) : List ScanEvent :=
  channels.foldr (fun p acc =>
    let mStart := startBeat measures mIdx
    let mLen := startBeat measures (mIdx + 1) - mStart
    let steps : ℚ := ((p.2.toList.length : ℚ)) / 2
    scanSteps lnType bpmDefs stopDefs mStart mLen steps p.1 0 (chunkPairs p.2.toList) ++ acc) []

/-- The method `BMSParser.parse` from the structured step-1 data: measure-length
resolution, grid scan, time integration, event materialization and final
sorting.  `initialBPM` defaults to 120 and `LNTYPE` to 1 when the headers
are absent, as in the source. -/
def parse (inp : BMSInput) : ChartOutput :=
  let initialBPM : ℚ :=
    match assoc inp.headers "BPM" with
    | none => 120
    | some s => (jsParseFloat s).getD 120
  let lnType : ℤ :=
    match assoc inp.headers "LNTYPE" with
    | none => 1
    | some s => (jsParseInt s).getD 1
  let sortedMeasures := sortByKey (fun p => ((p.1 : ℚ))) inp.measures
  let events := sortedMeasures.foldr
    (fun p acc => scanMeasure lnType inp.bpmDefs inp.stopDefs inp.measures p.1 p.2 ++ acc) []
  let timeEvents := sortByKey (fun e => e.beat) (timeEventsOf events)
  let channelEvents := sortByKey (fun e => e.beat) (chanEventsOf events)
  let beats := sortedCriticalBeats timeEvents channelEvents
  let r := integrateBeats beats timeEvents initialBPM 0 0
  let m := materialize lnType r.beatToTime channelEvents (fun _ => none)
  { notes := sortByKey (fun n => n.time) m.1
    bgmEvents := sortByKey (fun e => e.time) m.2
    bpms := { time := 0, bpm := initialBPM } :: r.bpms
    stops := r.stops
    initialBPM := initialBPM
    duration := r.duration }

/-! ## Concrete charts used by the scenario claims -/

/-- The end-to-end scenario chart of claim C4: base tempo 150, one measure
of 4 beats with no `'02'` scale channel, a single tap value at step 0 of a
4-step lane-0 channel (`#00011:01000000`). -/
def c4chart : BMSInput :=
  { headers := [("BPM", "150")]
    measures := [(0, [("11", "01000000")])]
    bpmDefs := [], stopDefs := [] }

/-- The stop-semantics chart of claim C3: tempo 120 throughout, notes at
beats 0, 2, 4 and 6, and a single stop of 48 ticks at beat 4
(`#STOP01 48`, `#00109:01`). -/
def stopChart : BMSInput :=
  { headers := [("BPM", "120")]
    measures := [(0, [("11", "0101")]), (1, [("11", "01000100"), ("09", "01")])]
    bpmDefs := [], stopDefs := [("01", 48)] }

/-- The same chart as `stopChart` compiled without the stop. -/
def noStopChart : BMSInput :=
  { headers := [("BPM", "120")]
    measures := [(0, [("11", "0101")]), (1, [("11", "01000100")])]
    bpmDefs := [], stopDefs := [] }

/-- An LNTYPE-2 chart holding `#00051:1100`: a hold opened at step 0 of
channel 51 and terminated by the null symbol at step 1. -/
def lnChart51 : BMSInput :=
  { headers := [("BPM", "120"), ("LNTYPE", "2")]
    measures := [(0, [("51", "1100")])]
    bpmDefs := [], stopDefs := [] }

/-- The same chart on channel 56 (`#00056:1100`), the hold-lane channel for
lane 3. -/
def lnChart56 : BMSInput :=
  { headers := [("BPM", "120"), ("LNTYPE", "2")]
    measures := [(0, [("56", "1100")])]
    bpmDefs := [], stopDefs := [] }

/-- A runtime hold note at time 0 in lane 0 with a 10 s duration. -/
def holdNote0 : RNote :=
  { time := 0, lane := 0, type := NoteType.ln, duration := 10
    hit := false, missed := false, isHolding := false }

/-- A runtime tap note at time 0 in lane 0. -/
def tapNote0 : RNote :=
  { time := 0, lane := 0, type := NoteType.tap, duration := 0
    hit := false, missed := false, isHolding := false }

/-- The Performance-State facts claim C6 asserts about `triggerHit`:
exact post-state equations for the two higher tiers and for the bad tier. -/
def TriggerHitSpec (s : Stats) : Prop :=
  ((triggerHitStats Judge.COOL s).combo = s.combo + 1
    ∧ (triggerHitStats Judge.COOL s).maxCombo = max s.maxCombo (s.combo + 1)
    ∧ (triggerHitStats Judge.COOL s).comboBonus
        = s.comboBonus + (if (s.combo + 1) % 25 = 0 then 10 else 0)
    ∧ (triggerHitStats Judge.COOL s).score
        = s.score + 100 + (triggerHitStats Judge.COOL s).comboBonus)
  ∧ ((triggerHitStats Judge.GOOD s).combo = s.combo + 1
    ∧ (triggerHitStats Judge.GOOD s).maxCombo = max s.maxCombo (s.combo + 1)
    ∧ (triggerHitStats Judge.GOOD s).comboBonus
        = s.comboBonus + (if (s.combo + 1) % 25 = 0 then 10 else 0)
    ∧ (triggerHitStats Judge.GOOD s).score
        = s.score + 80 + (triggerHitStats Judge.GOOD s).comboBonus)
  ∧ ((triggerHitStats Judge.BAD s).combo = 0
    ∧ (triggerHitStats Judge.BAD s).comboBonus = 0
    ∧ (triggerHitStats Judge.BAD s).score = s.score + 10
    ∧ (triggerHitStats Judge.BAD s).hp = s.hp)

/-! ## Claim theorems -/

/-! ### Helper lemmas for the Judgment Engine stats -/

theorem finalizeStats_combo (s : Stats) : (finalizeStats s).combo = s.combo := by
  unfold finalizeStats; split_ifs <;> rfl

theorem finalizeStats_maxCombo (s : Stats) : (finalizeStats s).maxCombo = s.maxCombo := by
  unfold finalizeStats; split_ifs <;> rfl

theorem finalizeStats_comboBonus (s : Stats) : (finalizeStats s).comboBonus = s.comboBonus := by
  unfold finalizeStats; split_ifs <;> rfl

theorem finalizeStats_hp (s : Stats) : (finalizeStats s).hp = s.hp := by
  unfold finalizeStats; split_ifs <;> rfl

theorem finalizeStats_score_of_nonneg (s : Stats) (h : 0 ≤ s.score) :
    (finalizeStats s).score = s.score := by
  unfold finalizeStats; split_ifs <;> first | rfl | omega

theorem applyCombo_cool (s : Stats) :
    applyCombo Judge.COOL s =
      { s with combo := s.combo + 1
               maxCombo := if s.combo + 1 > s.maxCombo then s.combo + 1 else s.maxCombo
               comboBonus := if (s.combo + 1) % 25 = 0 then s.comboBonus + 10 else s.comboBonus } := by
  unfold applyCombo
  norm_num
  split_ifs with h1 h2 <;> simp_all

theorem applyCombo_good (s : Stats) :
    applyCombo Judge.GOOD s =
      { s with combo := s.combo + 1
               maxCombo := if s.combo + 1 > s.maxCombo then s.combo + 1 else s.maxCombo
               comboBonus := if (s.combo + 1) % 25 = 0 then s.comboBonus + 10 else s.comboBonus } := by
  unfold applyCombo
  norm_num
  split_ifs with h1 h2 <;> simp_all

theorem applyScore_cool (s : Stats) :
    applyScore Judge.COOL s = { s with score := s.score + 100 + s.comboBonus } := rfl

theorem applyScore_good (s : Stats) :
    applyScore Judge.GOOD s = { s with score := s.score + 80 + s.comboBonus } := rfl

theorem applyScore_bad (s : Stats) :
    applyScore Judge.BAD s = { s with score := s.score + 10 } := rfl

theorem applyCombo_bad (s : Stats) :
    applyCombo Judge.BAD s = { s with combo := 0, comboBonus := 0 } := rfl

theorem applyCounters_cool (s : Stats) :
    applyCounters Judge.COOL s = { s with cool := s.cool + 1 } := rfl

theorem applyCounters_good (s : Stats) :
    applyCounters Judge.GOOD s = { s with good := s.good + 1 } := rfl

theorem applyCounters_bad (s : Stats) :
    applyCounters Judge.BAD s = { s with bad := s.bad + 1 } := rfl

theorem applyHp_cool (s : Stats) :
    applyHp Judge.COOL s = { s with hp := max 0 (min 100 (s.hp + 2)) } := rfl

theorem applyHp_good (s : Stats) :
    applyHp Judge.GOOD s = { s with hp := max 0 (min 100 (s.hp + 3/2)) } := rfl

theorem applyHp_bad (s : Stats) :
    applyHp Judge.BAD s = { s with hp := max 0 (min 100 s.hp) } := rfl

/-- C6.  For a sane Performance State (score, comboBonus nonnegative,
health within `[0,100]`), `triggerHit` behaves exactly as claimed: COOL and
GOOD increment combo, raise maxCombo when exceeded, add 10 to comboBonus
exactly at every 25th combo milestone, and add the tier base value (100 /
80) plus the updated comboBonus to score; BAD resets combo and comboBonus
to 0, adds only the flat 10 to score, and leaves health unchanged. -/
theorem triggerHit_stats_spec (s : Stats) (hsc : 0 ≤ s.score) (hcb : 0 ≤ s.comboBonus)
    (hhp0 : 0 ≤ s.hp) (hhp1 : s.hp ≤ 100) : TriggerHitSpec s := by
  unfold TriggerHitSpec
  refine ⟨⟨?_, ?_, ?_, ?_⟩, ⟨?_, ?_, ?_, ?_⟩, ?_, ?_, ?_, ?_⟩
  · simp only [triggerHitStats, applyCombo_cool, applyScore_cool, applyCounters_cool,
      applyHp_cool, finalizeStats_combo]
  · simp only [triggerHitStats, applyCombo_cool, applyScore_cool, applyCounters_cool,
      applyHp_cool, finalizeStats_maxCombo]
    split_ifs <;> omega
  · simp only [triggerHitStats, applyCombo_cool, applyScore_cool, applyCounters_cool,
      applyHp_cool, finalizeStats_comboBonus]
    split_ifs <;> omega
  · have hpos : (0:ℤ) ≤ s.score + 100 +
        (if (s.combo + 1) % 25 = 0 then s.comboBonus + 10 else s.comboBonus) := by
      split_ifs <;> omega
    simp only [triggerHitStats, applyCombo_cool, applyScore_cool, applyCounters_cool,
      applyHp_cool, finalizeStats_comboBonus]
    rw [finalizeStats_score_of_nonneg]
    exact hpos
  · simp only [triggerHitStats, applyCombo_good, applyScore_good, applyCounters_good,
      applyHp_good, finalizeStats_combo]
  · simp only [triggerHitStats, applyCombo_good, applyScore_good, applyCounters_good,
      applyHp_good, finalizeStats_maxCombo]
    split_ifs <;> omega
  · simp only [triggerHitStats, applyCombo_good, applyScore_good, applyCounters_good,
      applyHp_good, finalizeStats_comboBonus]
    split_ifs <;> omega
  · have hpos : (0:ℤ) ≤ s.score + 80 +
        (if (s.combo + 1) % 25 = 0 then s.comboBonus + 10 else s.comboBonus) := by
      split_ifs <;> omega
    simp only [triggerHitStats, applyCombo_good, applyScore_good, applyCounters_good,
      applyHp_good, finalizeStats_comboBonus]
    rw [finalizeStats_score_of_nonneg]
    exact hpos
  · simp only [triggerHitStats, applyCombo_bad, applyScore_bad, applyCounters_bad,
      applyHp_bad, finalizeStats_combo]
  · simp only [triggerHitStats, applyCombo_bad, applyScore_bad, applyCounters_bad,
      applyHp_bad, finalizeStats_comboBonus]
  · have hpos : (0:ℤ) ≤ s.score + 10 := by omega
    simp only [triggerHitStats, applyCombo_bad, applyScore_bad, applyCounters_bad,
      applyHp_bad]
    rw [finalizeStats_score_of_nonneg]
    exact hpos
  · simp only [triggerHitStats, applyCombo_bad, applyScore_bad, applyCounters_bad,
      applyHp_bad, finalizeStats_hp]
    rw [min_eq_right hhp1, max_eq_right hhp0]


/-- C6, witness: the theorem applied at the freshly reset Performance
State. -/
theorem triggerHit_stats_spec_witness :
    (0 ≤ initStats.score ∧ 0 ≤ initStats.comboBonus ∧ 0 ≤ initStats.hp ∧ initStats.hp ≤ 100)
    ∧ TriggerHitSpec initStats :=
  ⟨⟨by norm_num [initStats], by norm_num [initStats], by norm_num [initStats],
    by norm_num [initStats]⟩,
   triggerHit_stats_spec initStats (by norm_num [initStats]) (by norm_num [initStats])
     (by norm_num [initStats]) (by norm_num [initStats])⟩

theorem eligB_true_iff (t : ℚ) (lane : ℕ) (n : RNote) :
    eligB t lane n = true ↔
      n.lane = lane ∧ n.hit = false ∧ n.missed = false ∧ |n.time - t| < 3/20 := by
  simp [eligB, Bool.and_eq_true, decide_eq_true_iff, Bool.not_eq_true', and_assoc]

theorem enumFrom_mem {α : Type} {p : ℕ × α} :
    ∀ {l : List α} {k : ℕ}, p ∈ enumFrom k l → k ≤ p.1 ∧ l.get? (p.1 - k) = some p.2 := by
  intro l
  induction l with
  | nil => intro k h; simp [enumFrom] at h
  | cons a as ih =>
      intro k h
      simp only [enumFrom, List.mem_cons] at h
      rcases h with h | h
      · subst h; simp
      · rcases ih h with ⟨hk, hg⟩
        refine ⟨by omega, ?_⟩
        have : p.1 - k = (p.1 - (k + 1)) + 1 := by omega
        rw [this]
        simpa using hg

theorem enumFrom_mem_snd {α : Type} {p : ℕ × α} {l : List α} {k : ℕ}
    (h : p ∈ enumFrom k l) : p.2 ∈ l := by
  rcases enumFrom_mem h with ⟨hk, hg⟩
  exact List.get?_mem hg

/-- C9.  A press with zero eligible candidates in its lane — no note that
is unjudged, in the pressed lane, and within the widest (150 ms) tolerance
window — is a complete no-op: Performance State and every note's runtime
state are returned unchanged. -/
theorem checkHit_no_candidates_noop (t : ℚ) (lane : ℕ) (notes : List RNote) (stats : Stats)
    (h : ∀ n ∈ notes, ¬(n.lane = lane ∧ n.hit = false ∧ n.missed = false ∧ |n.time - t| < 3/20)) :
    checkHit t lane (notes, stats) = (notes, stats) := by
  unfold checkHit
  have hfil : (enumFrom 0 notes).filter (fun p => eligB t lane p.2) = [] := by
    rw [List.filter_eq_nil_iff]
    intro p hp
    have hm : p.2 ∈ notes := enumFrom_mem_snd hp
    intro hb
    exact h p.2 hm ((eligB_true_iff t lane p.2).mp hb)
  dsimp only
  rw [hfil]
  rfl


/-- C9, witness: a press in lane 1 at `t = 10` with only a lane-0 note at
time 0 in play. -/
theorem checkHit_no_candidates_noop_witness :
    (∀ n ∈ [tapNote0], ¬(n.lane = 1 ∧ n.hit = false ∧ n.missed = false ∧ |n.time - 10| < 3/20))
    ∧ checkHit 10 1 ([tapNote0], initStats) = ([tapNote0], initStats) :=
  ⟨of_decide_eq_true (by with_unfolding_all rfl),
   checkHit_no_candidates_noop 10 1 [tapNote0] initStats
     (of_decide_eq_true (by with_unfolding_all rfl))⟩


theorem updateNote_fresh_tap (t : ℚ) (n : RNote) (s : Stats)
    (htap : n.type = NoteType.tap) (hh : n.hit = false) (hm : n.missed = false) :
    updateNote false t n s =
      (if n.time - t < -(3/20) then ({ n with missed := true }, triggerMissStats s)
       else (n, s)) := by
  unfold updateNote
  simp [htap, hh, hm]

theorem updateNote_missed_tap (t : ℚ) (n : RNote) (s : Stats)
    (htap : n.type = NoteType.tap) (hh : n.hit = false) (hm : n.missed = true) :
    updateNote false t n s = (n, s) := by
  unfold updateNote
  simp [htap, hh, hm]

theorem runTicks_missed_tap (ts : List ℚ) (n : RNote) (s : Stats)
    (htap : n.type = NoteType.tap) (hh : n.hit = false) (hm : n.missed = true) :
    runTicks false ts ([n], s) = ([n], s) := by
  induction ts with
  | nil => rfl
  | cons t ts ih =>
      show runTicks false ts (updateTick false t ([n], s)) = ([n], s)
      have : updateTick false t ([n], s) = ([n], s) := by
        show updateNotes false t [n] s = ([n], s)
        unfold updateNotes
        rw [updateNote_missed_tap t n s htap hh hm]
        rfl
      rw [this, ih]

/-- C7.  A tap note at time `T` with no press ever registered in its lane
(a single-note session under normal play, `autoDemo` off): over any
sequence of ticks, the note ends `missed` exactly when some tick's clock
reading strictly exceeds `T` plus the 150 ms hard-miss threshold, and in
that case the miss penalty (`triggerMiss`) is applied to Performance State
exactly once — the first late tick applies it, and every later tick leaves
the already-missed note and the stats untouched. -/
theorem tap_miss_aging_once (T : ℚ) (lane : ℕ) (d : ℚ) (s0 : Stats) (ts : List ℚ) :
    runTicks false ts
        ([{ time := T, lane := lane, type := NoteType.tap, duration := d,
            hit := false, missed := false, isHolding := false }], s0)
      = if ts.any (fun t => decide (T + 3/20 < t))
        then ([{ time := T, lane := lane, type := NoteType.tap, duration := d,
                 hit := false, missed := true, isHolding := false }], triggerMissStats s0)
        else ([{ time := T, lane := lane, type := NoteType.tap, duration := d,
                 hit := false, missed := false, isHolding := false }], s0) := by
  induction ts generalizing s0 with
  | nil => rfl
  | cons t ts ih =>
      show runTicks false ts
        (updateTick false t
          ([{ time := T, lane := lane, type := NoteType.tap, duration := d,
              hit := false, missed := false, isHolding := false }], s0)) = _
      have hstep : updateTick false t
          ([{ time := T, lane := lane, type := NoteType.tap, duration := d,
              hit := false, missed := false, isHolding := false }], s0)
          = if T - t < -(3/20)
            then ([{ time := T, lane := lane, type := NoteType.tap, duration := d,
                     hit := false, missed := true, isHolding := false }], triggerMissStats s0)
            else ([{ time := T, lane := lane, type := NoteType.tap, duration := d,
                     hit := false, missed := false, isHolding := false }], s0) := by
        show updateNotes false t _ s0 = _
        unfold updateNotes
        rw [updateNote_fresh_tap t _ s0 rfl rfl rfl]
        dsimp only
        split_ifs with h <;> rfl
      by_cases hc : T + 3/20 < t
      · have hc2 : T - t < -(3/20) := by linarith
        rw [hstep, if_pos hc2, runTicks_missed_tap ts _ _ rfl rfl rfl, if_pos]
        simp [List.any_cons, hc]
      · have hc2 : ¬(T - t < -(3/20)) := by intro h; exact hc (by linarith)
        rw [hstep, if_neg hc2, ih]
        have : (t :: ts).any (fun x => decide (T + 3/20 < x)) = ts.any (fun x => decide (T + 3/20 < x)) := by
          simp [List.any_cons, hc]
        rw [this]


theorem remap_case (u : ℕ → Bool) (n : Note) :
    (if (remapNote u n).lane < 4 then some (remapNote u n) else none)
      = (runtimeLaneSpec (u 3) (u 4) n.lane).map
          (fun lv => ({ time := n.time, lane := lv, type := n.type, duration := n.duration
                        hit := false, missed := false, isHolding := false } : RNote)) := by
  rcases n with ⟨time, lane, ty, dur⟩
  match lane with
  | 0 => simp [remapNote, runtimeLaneSpec]
  | 1 => simp [remapNote, runtimeLaneSpec]
  | 2 => simp [remapNote, runtimeLaneSpec]
  | 3 => simp [remapNote, runtimeLaneSpec]
  | 4 =>
      rcases h3 : u 3 <;> simp [remapNote, runtimeLaneSpec, h3]
  | 5 =>
      rcases h3 : u 3 <;> rcases h4 : u 4 <;> simp [remapNote, runtimeLaneSpec, h3, h4]
  | (k + 6) =>
      have e1 : ¬(k + 6 = 4) := by omega
      have e2 : ¬(k + 6 = 5) := by omega
      have e3 : ¬(k + 6 ≤ 3) := by omega
      have e4 : ¬(k + 6 < 4) := by omega
      simp [remapNote, runtimeLaneSpec, e1, e2, e3, e4]

theorem remap_filterMap (u : ℕ → Bool) (l : List Note) :
    (l.map (remapNote u)).filter (fun n => n.lane < 4)
      = l.filterMap (fun n => (runtimeLaneSpec (u 3) (u 4) n.lane).map
          (fun lv => ({ time := n.time, lane := lv, type := n.type, duration := n.duration
                        hit := false, missed := false, isHolding := false } : RNote))) := by
  induction l with
  | nil => rfl
  | cons n l ih =>
      rw [List.map_cons, List.filter_cons, List.filterMap_cons]
      have hc := remap_case u n
      by_cases h : (remapNote u n).lane < 4
      · rw [if_pos h] at hc
        simp only [if_pos (by exact_mod_cast (decide_eq_true h : decide ((remapNote u n).lane < 4) = true))]
        rw [← hc]
        simp [ih]
      · rw [if_neg h] at hc
        rw [← hc]
        simp [h, ih]

/-- C10.  The playable runtime note set built in `RhythmGame.start` is
exactly the lane-remapped filter described by the claim
(`prepareRuntimeNotesSpec`): lanes 0-3 are kept, lane 4 is kept as lane 3
only when no compiled note uses lane 3, lane 5 is kept as lane 3 only when
no compiled note uses lane 3 or 4, and every other note with lane >= 4 is
silently dropped; consequently every runtime note has lane in 0..3. -/
theorem runtime_lane_remap_spec (chartNotes : List Note) :
    prepareRuntimeNotes chartNotes = prepareRuntimeNotesSpec chartNotes
    ∧ ∀ n ∈ prepareRuntimeNotes chartNotes, n.lane ≤ 3 := by
  constructor
  · unfold prepareRuntimeNotes prepareRuntimeNotesSpec
    exact remap_filterMap (fun k => chartNotes.any (fun n => n.lane = k)) chartNotes
  · intro n hn
    unfold prepareRuntimeNotes at hn
    have := List.of_mem_filter hn
    simp only [decide_eq_true_eq] at this
    omega


theorem materialize_ln_provenance (lnType : ℤ) (b2t : List (ℚ × ℚ)) (U : List ChannelEvent) :
    ∀ (evs : List ChannelEvent) (pending : ℕ → Option Note),
      (∀ e ∈ evs, e ∈ U) →
      (∀ l n0, pending l = some n0 →
         n0.type = NoteType.ln ∧ n0.lane = l ∧
         ∃ eo ∈ U, eo.kind = CEKind.ln ∧ eo.lane = l ∧ n0.time = evTime b2t eo) →
      ∀ n ∈ (materialize lnType b2t evs pending).1, n.type = NoteType.ln →
        ∃ eo ∈ U, ∃ ec ∈ U, eo.kind = CEKind.ln ∧ ec.kind = CEKind.ln ∧
          eo.lane = n.lane ∧ ec.lane = n.lane ∧
          n.time = evTime b2t eo ∧ n.time + n.duration = evTime b2t ec := by
  intro evs
  induction evs with
  | nil =>
      intro pending hsub hpend n hn hty
      simp [materialize] at hn
  | cons ev evs ih =>
      intro pending hsub hpend n hn hty
      have hsub' : ∀ e ∈ evs, e ∈ U := fun e he => hsub e (List.mem_cons_of_mem ev he)
      have hevU : ev ∈ U := hsub ev (List.mem_cons_self ev evs)
      have hclear : ∀ l n0,
          (fun l2 => if l2 = ev.lane then none else pending l2) l = some n0 →
          n0.type = NoteType.ln ∧ n0.lane = l ∧
          ∃ eo ∈ U, eo.kind = CEKind.ln ∧ eo.lane = l ∧ n0.time = evTime b2t eo := by
        intro l n0 h
        by_cases hl : l = ev.lane
        · simp [hl] at h
        · simp only [if_neg hl] at h
          exact hpend l n0 h
      have hopen : ev.kind = CEKind.ln → ∀ l n0,
          (fun l2 => if l2 = ev.lane then
              some ({ time := evTime b2t ev, lane := ev.lane, type := NoteType.ln
                      duration := 0 } : Note)
            else pending l2) l = some n0 →
          n0.type = NoteType.ln ∧ n0.lane = l ∧
          ∃ eo ∈ U, eo.kind = CEKind.ln ∧ eo.lane = l ∧ n0.time = evTime b2t eo := by
        intro hk l n0 h
        by_cases hl : l = ev.lane
        · subst hl
          simp only [eq_self_iff_true, if_true, Option.some.injEq] at h
          subst h
          exact ⟨rfl, rfl, ev, hevU, hk, rfl, rfl⟩
        · simp only [if_neg hl] at h
          exact hpend l n0 h
      have hdone : ∀ startNote : Note, pending ev.lane = some startNote →
          ∀ hn2 : n = { startNote with duration := evTime b2t ev - startNote.time },
          ev.kind = CEKind.ln →
          ∃ eo ∈ U, ∃ ec ∈ U, eo.kind = CEKind.ln ∧ ec.kind = CEKind.ln ∧
            eo.lane = n.lane ∧ ec.lane = n.lane ∧
            n.time = evTime b2t eo ∧ n.time + n.duration = evTime b2t ec := by
        intro startNote hp hn2 hk
        obtain ⟨hty0, hlane0, eo, heoU, heok, heol, heot⟩ := hpend ev.lane startNote hp
        subst hn2
        refine ⟨eo, heoU, ev, hevU, heok, hk, ?_, ?_, ?_, ?_⟩
        · simpa [heol] using hlane0.symm
        · exact hlane0.symm
        · exact heot
        · show startNote.time + (evTime b2t ev - startNote.time) = evTime b2t ev
          ring
      cases hk : ev.kind with
      | note =>
          simp only [materialize, hk] at hn
          rcases List.mem_cons.mp hn with rfl | hn2
          · simp at hty
          · exact ih pending hsub' hpend n hn2 hty
      | bgm =>
          simp only [materialize, hk] at hn
          exact ih pending hsub' hpend n hn hty
      | ln =>
          by_cases h2 : lnType = 2
          · subst h2
            by_cases h0 : ev.valStr = "00"
            · cases hp : pending ev.lane with
              | some startNote =>
                  simp only [materialize, hk, h0, hp, eq_self_iff_true, if_true] at hn
                  rcases List.mem_cons.mp hn with rfl | hn2
                  · exact hdone startNote hp rfl hk
                  · exact ih _ hsub' hclear n hn2 hty
              | none =>
                  simp only [materialize, hk, h0, hp, eq_self_iff_true, if_true] at hn
                  exact ih pending hsub' hpend n hn hty
            · cases hp : pending ev.lane with
              | some startNote =>
                  simp only [materialize, hk, h0, hp, eq_self_iff_true, if_true, if_false] at hn
                  rcases List.mem_cons.mp hn with rfl | hn2
                  · exact hdone startNote hp rfl hk
                  · exact ih _ hsub' (hopen hk) n hn2 hty
              | none =>
                  simp only [materialize, hk, h0, hp, eq_self_iff_true, if_true, if_false] at hn
                  exact ih _ hsub' (hopen hk) n hn hty
          · cases hp : pending ev.lane with
            | some startNote =>
                simp only [materialize, hk, h2, hp] at hn
                rcases List.mem_cons.mp hn with rfl | hn2
                · exact hdone startNote hp rfl hk
                · exact ih _ hsub' hclear n hn2 hty
            | none =>
                simp only [materialize, hk, h2, hp] at hn
                exact ih _ hsub' (hopen hk) n hn hty

/-- C8.  Every hold note the materialization step ever emits comes from a
matched open/close pair of LN channel events in its lane: its start time is
the time of an LN event of that lane and its end time (`time + duration`)
is the time of another (possibly the force-closing opener of the next
hold).  A pending opening with no closer is never emitted — in particular
no note with a placeholder duration ever reaches the output. -/
theorem ln_notes_matched_pairs (lnType : ℤ) (b2t : List (ℚ × ℚ)) (evs : List ChannelEvent) :
    ∀ n ∈ (materialize lnType b2t evs (fun _ => none)).1, n.type = NoteType.ln →
      ∃ eo ∈ evs, ∃ ec ∈ evs,
        eo.kind = CEKind.ln ∧ ec.kind = CEKind.ln ∧
        eo.lane = n.lane ∧ ec.lane = n.lane ∧
        n.time = evTime b2t eo ∧ n.time + n.duration = evTime b2t ec :=
  materialize_ln_provenance lnType b2t evs evs (fun _ => none)
    (fun _ he => he) (fun _ _ h => by simp at h)

/-- C8, witness: the toggle-convention pair at beats 0 and 2 emits one hold
note whose provenance the theorem certifies. -/
theorem ln_notes_matched_pairs_witness :
    (({ time := 0, lane := 0, type := NoteType.ln, duration := 1 } : Note)
        ∈ (materialize 1 [(0, 0), (2, 1)]
            [{ beat := 0, kind := CEKind.ln, lane := 0, valStr := "01" },
             { beat := 2, kind := CEKind.ln, lane := 0, valStr := "02" }] (fun _ => none)).1
      ∧ ({ time := 0, lane := 0, type := NoteType.ln, duration := 1 } : Note).type = NoteType.ln)
    ∧ ∃ eo ∈ [({ beat := 0, kind := CEKind.ln, lane := 0, valStr := "01" } : ChannelEvent),
              { beat := 2, kind := CEKind.ln, lane := 0, valStr := "02" }],
       ∃ ec ∈ [({ beat := 0, kind := CEKind.ln, lane := 0, valStr := "01" } : ChannelEvent),
               { beat := 2, kind := CEKind.ln, lane := 0, valStr := "02" }],
        eo.kind = CEKind.ln ∧ ec.kind = CEKind.ln ∧
        eo.lane = 0 ∧ ec.lane = 0 ∧
        (0:ℚ) = evTime [(0, 0), (2, 1)] eo ∧ (0:ℚ) + 1 = evTime [(0, 0), (2, 1)] ec :=
  ⟨⟨of_decide_eq_true (by with_unfolding_all rfl), rfl⟩,
   ln_notes_matched_pairs 1 [(0, 0), (2, 1)]
     [{ beat := 0, kind := CEKind.ln, lane := 0, valStr := "01" },
      { beat := 2, kind := CEKind.ln, lane := 0, valStr := "02" }]
     { time := 0, lane := 0, type := NoteType.ln, duration := 1 }
     (of_decide_eq_true (by with_unfolding_all rfl)) rfl⟩


theorem set_get?_of_ne {α : Type} :
    ∀ (l : List α) (j i : ℕ) (v : α), i ≠ j → (l.set j v).get? i = l.get? i := by
  intro l
  induction l with
  | nil => intro j i v h; rfl
  | cons a l ih =>
      intro j i v h
      cases j with
      | zero =>
          cases i with
          | zero => exact absurd rfl h
          | succ k => rfl
      | succ j2 =>
          cases i with
          | zero => rfl
          | succ k =>
              show (l.set j2 v).get? k = l.get? k
              exact ih j2 k v (by omega)

theorem set_get?_self {α : Type} :
    ∀ (l : List α) (j : ℕ) (v : α), j < l.length → (l.set j v).get? j = some v := by
  intro l
  induction l with
  | nil => intro j v h; simp at h
  | cons a l ih =>
      intro j v h
      cases j with
      | zero => rfl
      | succ j2 =>
          show (l.set j2 v).get? j2 = some v
          exact ih j2 v (by simpa using h)

theorem foldl_pick_mem (t : ℚ) :
    ∀ (cs : List (ℕ × RNote)) (acc : ℕ × RNote),
      (cs.foldl (fun best c2 =>
        if |c2.2.time - t| < |best.2.time - t| then c2 else best) acc) = acc
      ∨ (cs.foldl (fun best c2 =>
        if |c2.2.time - t| < |best.2.time - t| then c2 else best) acc) ∈ cs := by
  intro cs
  induction cs with
  | nil => intro acc; left; rfl
  | cons c cs ih =>
      intro acc
      rcases ih (if |c.2.time - t| < |acc.2.time - t| then c else acc) with h | h
      · rw [List.foldl_cons, h]
        split_ifs with hc
        · right; exact List.mem_cons_self c cs
        · left; rfl
      · right
        rw [List.foldl_cons]
        exact List.mem_cons_of_mem c h

theorem pickClosest_mem {t : ℚ} {l : List (ℕ × RNote)} {r : ℕ × RNote}
    (h : pickClosest t l = some r) : r ∈ l := by
  cases l with
  | nil => simp [pickClosest] at h
  | cons c cs =>
      simp only [pickClosest, Option.some.injEq] at h
      rcases foldl_pick_mem t cs c with h2 | h2
      · rw [h2] at h; rw [← h]; exact List.mem_cons_self c cs
      · rw [← h]; exact List.mem_cons_of_mem c h2

/-- C1, amended.  A note whose `hit` or `missed` flag is set is never
selected again: any later press leaves its runtime state untouched (first
conjunct).  And whenever a press changes the state of a **tap** note, that
note ends the press `hit` or `missed`, hence permanently ineligible — so a
tap note is judged by at most one press (second conjunct).  The exception
the counterexample forces: a hold note's head judgment sets only
`isHolding`, with `hit`/`missed` still false, so it stays eligible and can
be judged again by a later press. -/
theorem checkHit_judged_once (t : ℚ) (lane : ℕ) (notes : List RNote) (stats : Stats) :
    (∀ i n, notes.get? i = some n → (n.hit = true ∨ n.missed = true) →
       (checkHit t lane (notes, stats)).1.get? i = some n)
    ∧ (∀ i n n2, notes.get? i = some n →
       (checkHit t lane (notes, stats)).1.get? i = some n2 →
       n2 ≠ n → n2.type = NoteType.tap → (n2.hit = true ∨ n2.missed = true)) := by
  unfold checkHit
  dsimp only
  cases hpick : pickClosest t (List.filter (fun p => eligB t lane p.2) (enumFrom 0 notes)) with
  | none =>
      simp only [hpick]
      constructor
      · intro i n hg _
        exact hg
      · intro i n n2 hg hg2 hne _
        rw [hg] at hg2
        exact absurd (Option.some.inj hg2).symm hne
  | some pr =>
      obtain ⟨j, target⟩ := pr
      have hmem := pickClosest_mem hpick
      have hmf := List.mem_filter.mp hmem
      have hget : notes.get? j = some target := by
        have h2 := (enumFrom_mem hmf.1).2
        simpa using h2
      have helig := (eligB_true_iff t lane target).mp hmf.2
      have hlen : j < notes.length := by
        by_contra hc
        rw [List.get?_eq_none.mpr (by omega)] at hget
        exact Option.noConfusion hget
      have mainA : ∀ (v : RNote) (i : ℕ) (n : RNote), notes.get? i = some n →
          (n.hit = true ∨ n.missed = true) → (notes.set j v).get? i = some n := by
        intro v i n hg hjudged
        have hne : i ≠ j := by
          intro he
          subst he
          rw [hget] at hg
          have he2 := Option.some.inj hg
          rcases hjudged with h | h
          · rw [← he2] at h; rw [helig.2.1] at h; exact Bool.noConfusion h
          · rw [← he2] at h; rw [helig.2.2.1] at h; exact Bool.noConfusion h
        rw [set_get?_of_ne notes j i v hne]
        exact hg
      have mainB : ∀ (v : RNote), (v.type = NoteType.tap → v.hit = true ∨ v.missed = true) →
          ∀ (i : ℕ) (n n2 : RNote), notes.get? i = some n → (notes.set j v).get? i = some n2 →
          n2 ≠ n → n2.type = NoteType.tap → (n2.hit = true ∨ n2.missed = true) := by
        intro v hv i n n2 hg hg2 hne hty
        by_cases hij : i = j
        · subst hij
          rw [set_get?_self notes i v hlen] at hg2
          rw [← Option.some.inj hg2]
          exact hv (by rw [Option.some.inj hg2]; exact hty)
        · rw [set_get?_of_ne notes j i v hij, hg] at hg2
          exact absurd (Option.some.inj hg2).symm hne
      simp only [hpick]
      by_cases hj : judgeOf ((t - target.time) * 1000) ≠ Judge.MISS
      · rw [if_pos hj]
        cases htyp : target.type with
        | tap =>
            refine ⟨fun i n hg hjud => mainA _ i n hg hjud, ?_⟩
            exact mainB _ (fun _ => Or.inl rfl)
        | ln =>
            refine ⟨fun i n hg hjud => mainA _ i n hg hjud, ?_⟩
            refine mainB _ (fun h => ?_)
            have h2 : target.type = NoteType.tap := by
              rw [← htyp] at h
              exact h
            rw [htyp] at h2
            exact NoteType.noConfusion h2
      · rw [if_neg hj]
        refine ⟨fun i n hg hjud => mainA _ i n hg hjud, ?_⟩
        exact mainB _ (fun _ => Or.inr rfl)


/-- C1 (amended), witness: a press at `t = 0` cannot re-judge the lane-0
tap note that is already hit. -/
theorem checkHit_judged_once_witness :
    ([({ time := 0, lane := 0, type := NoteType.tap, duration := 0
         hit := true, missed := false, isHolding := false } : RNote)].get? 0
      = some { time := 0, lane := 0, type := NoteType.tap, duration := 0
               hit := true, missed := false, isHolding := false })
    ∧ (checkHit 0 0 ([{ time := 0, lane := 0, type := NoteType.tap, duration := 0
                        hit := true, missed := false, isHolding := false }], initStats)).1.get? 0
      = some { time := 0, lane := 0, type := NoteType.tap, duration := 0
               hit := true, missed := false, isHolding := false } :=
  ⟨rfl, (checkHit_judged_once 0 0
      [{ time := 0, lane := 0, type := NoteType.tap, duration := 0
         hit := true, missed := false, isHolding := false }] initStats).1 0
      { time := 0, lane := 0, type := NoteType.tap, duration := 0
        hit := true, missed := false, isHolding := false } rfl (Or.inl rfl)⟩


theorem lookupBeat_cons_self (b t : ℚ) (rest : List (ℚ × ℚ)) :
    lookupBeat ((b, t) :: rest) b = some t := by
  unfold lookupBeat
  rw [List.find?_cons]
  simp

theorem lookupBeat_cons_ne (bq b t : ℚ) (rest : List (ℚ × ℚ)) (h : bq ≠ b) :
    lookupBeat ((bq, t) :: rest) b = lookupBeat rest b := by
  unfold lookupBeat
  rw [List.find?_cons]
  simp [h]

theorem integrate_const (beats : List ℚ) : ∀ (lb t0 c : ℚ), t0 = lb/2 + c →
    (integrateBeats beats [] 120 lb t0).stops = []
    ∧ ∀ b ∈ beats, lookupBeat (integrateBeats beats [] 120 lb t0).beatToTime b
        = some (b/2 + c) := by
  induction beats with
  | nil =>
      intro lb t0 c ht
      exact ⟨rfl, by simp⟩
  | cons beat bs ih =>
      intro lb t0 c ht
      have ht1 : t0 + (beat - lb) * (60 / 120) = beat/2 + c := by rw [ht]; ring
      obtain ⟨hs, hm⟩ := ih beat (t0 + (beat - lb) * (60 / 120)) c ht1
      constructor
      · show [] ++ (integrateBeats bs [] 120 beat (t0 + (beat - lb) * (60 / 120))).stops = []
        rw [hs]
        rfl
      · intro b hb
        show lookupBeat ((beat, t0 + (beat - lb) * (60 / 120)) ::
          (integrateBeats bs [] 120 beat (t0 + (beat - lb) * (60 / 120))).beatToTime) b
          = some (b/2 + c)
        by_cases he : beat = b
        · subst he
          rw [lookupBeat_cons_self, ht1]
        · rw [lookupBeat_cons_ne _ _ _ _ he]
          rcases List.mem_cons.mp hb with rfl | hb2
          · exact absurd rfl he
          · exact hm b hb2

theorem integrateBeats_cons (beat : ℚ) (bs : List ℚ) (tes : List TimeEvent) (bpm lb t0 : ℚ) :
    integrateBeats (beat :: bs) tes bpm lb t0 =
      { beatToTime := (beat, t0 + (beat - lb) * (60 / bpm)) ::
          (integrateBeats bs
            (applyTimeEvents beat (t0 + (beat - lb) * (60 / bpm)) tes bpm
              (t0 + (beat - lb) * (60 / bpm))).1
            (applyTimeEvents beat (t0 + (beat - lb) * (60 / bpm)) tes bpm
              (t0 + (beat - lb) * (60 / bpm))).2.1
            beat
            (applyTimeEvents beat (t0 + (beat - lb) * (60 / bpm)) tes bpm
              (t0 + (beat - lb) * (60 / bpm))).2.2.1).beatToTime
        bpms := (applyTimeEvents beat (t0 + (beat - lb) * (60 / bpm)) tes bpm
              (t0 + (beat - lb) * (60 / bpm))).2.2.2.1 ++
          (integrateBeats bs
            (applyTimeEvents beat (t0 + (beat - lb) * (60 / bpm)) tes bpm
              (t0 + (beat - lb) * (60 / bpm))).1
            (applyTimeEvents beat (t0 + (beat - lb) * (60 / bpm)) tes bpm
              (t0 + (beat - lb) * (60 / bpm))).2.1
            beat
            (applyTimeEvents beat (t0 + (beat - lb) * (60 / bpm)) tes bpm
              (t0 + (beat - lb) * (60 / bpm))).2.2.1).bpms
        stops := (applyTimeEvents beat (t0 + (beat - lb) * (60 / bpm)) tes bpm
              (t0 + (beat - lb) * (60 / bpm))).2.2.2.2 ++
          (integrateBeats bs
            (applyTimeEvents beat (t0 + (beat - lb) * (60 / bpm)) tes bpm
              (t0 + (beat - lb) * (60 / bpm))).1
            (applyTimeEvents beat (t0 + (beat - lb) * (60 / bpm)) tes bpm
              (t0 + (beat - lb) * (60 / bpm))).2.1
            beat
            (applyTimeEvents beat (t0 + (beat - lb) * (60 / bpm)) tes bpm
              (t0 + (beat - lb) * (60 / bpm))).2.2.1).stops
        duration := (integrateBeats bs
            (applyTimeEvents beat (t0 + (beat - lb) * (60 / bpm)) tes bpm
              (t0 + (beat - lb) * (60 / bpm))).1
            (applyTimeEvents beat (t0 + (beat - lb) * (60 / bpm)) tes bpm
              (t0 + (beat - lb) * (60 / bpm))).2.1
            beat
            (applyTimeEvents beat (t0 + (beat - lb) * (60 / bpm)) tes bpm
              (t0 + (beat - lb) * (60 / bpm))).2.2.1).duration } := rfl

theorem integrate_stop (beats : List ℚ) : ∀ (lb t0 : ℚ), t0 = lb/2 →
    (4:ℚ) ∈ beats → beats.Pairwise (fun a b => a < b) →
    (∀ b ∈ beats, b < 4 → b + 1/1000000 ≤ 4) →
    (integrateBeats beats [{ beat := 4, kind := TEKind.stop, value := 48 }] 120 lb t0).stops
        = [{ time := 2, duration := 1/2 }]
    ∧ ∀ b ∈ beats,
        lookupBeat (integrateBeats beats [{ beat := 4, kind := TEKind.stop, value := 48 }]
            120 lb t0).beatToTime b
          = some (if 4 < b then b/2 + 1/2 else b/2) := by
  induction beats with
  | nil =>
      intro lb t0 ht h4 hpw heps
      simp at h4
  | cons beat bs ih =>
      intro lb t0 ht h4 hpw heps
      have hpw2 := List.pairwise_cons.mp hpw
      by_cases hbe : beat = 4
      · subst hbe
        have ht1 : t0 + ((4:ℚ) - lb) * (60 / 120) = 2 := by rw [ht]; ring
        have happ : applyTimeEvents 4 (t0 + ((4:ℚ) - lb) * (60 / 120))
            [{ beat := 4, kind := TEKind.stop, value := 48 }] 120 (t0 + ((4:ℚ) - lb) * (60 / 120))
            = ([], 120, (t0 + ((4:ℚ) - lb) * (60 / 120)) + 48/48 * (60/120), [],
               [{ time := t0 + ((4:ℚ) - lb) * (60 / 120), duration := 48/48 * (60/120) }]) := by
          unfold applyTimeEvents
          rw [if_pos (by norm_num)]
          rfl
        obtain ⟨hcs, hcm⟩ := integrate_const bs 4
          ((t0 + ((4:ℚ) - lb) * (60 / 120)) + 48/48 * (60/120)) (1/2) (by rw [ht1]; norm_num)
        rw [integrateBeats_cons, happ]
        constructor
        · show [{ time := t0 + ((4:ℚ) - lb) * (60 / 120), duration := 48/48 * (60/120) }] ++
            (integrateBeats bs [] 120 4
              ((t0 + ((4:ℚ) - lb) * (60 / 120)) + 48/48 * (60/120))).stops
            = [{ time := 2, duration := 1/2 }]
          rw [hcs, ht1]
          norm_num
        · intro b hb
          show lookupBeat ((4, t0 + ((4:ℚ) - lb) * (60 / 120)) ::
              (integrateBeats bs [] 120 4
                ((t0 + ((4:ℚ) - lb) * (60 / 120)) + 48/48 * (60/120))).beatToTime) b
            = some (if 4 < b then b/2 + 1/2 else b/2)
          rcases List.mem_cons.mp hb with rfl | hb2
          · rw [lookupBeat_cons_self, ht1]
            norm_num
          · have hgt : (4:ℚ) < b := hpw2.1 b hb2
            rw [lookupBeat_cons_ne _ _ _ _ (by intro he; rw [he] at hgt; exact lt_irrefl b hgt)]
            rw [hcm b hb2, if_pos hgt]
      · have h4bs : (4:ℚ) ∈ bs := by
          rcases List.mem_cons.mp h4 with he | h2
          · exact absurd he.symm hbe
          · exact h2
        have hblt : beat < 4 := hpw2.1 4 h4bs
        have hepsb : beat + 1/1000000 ≤ 4 := heps beat (List.mem_cons_self beat bs) hblt
        have ht1 : t0 + (beat - lb) * (60 / 120) = beat/2 := by rw [ht]; ring
        have happ : applyTimeEvents beat (t0 + (beat - lb) * (60 / 120))
            [{ beat := 4, kind := TEKind.stop, value := 48 }] 120 (t0 + (beat - lb) * (60 / 120))
            = ([{ beat := 4, kind := TEKind.stop, value := 48 }], 120,
               t0 + (beat - lb) * (60 / 120), [], []) := by
          unfold applyTimeEvents
          rw [if_neg]
          intro habs
          dsimp only at habs
          rw [abs_of_nonneg (by linarith)] at habs
          linarith
        obtain ⟨hss, hsm⟩ := ih beat (t0 + (beat - lb) * (60 / 120)) ht1 h4bs hpw2.2
          (fun b hb hlt => heps b (List.mem_cons_of_mem beat hb) hlt)
        rw [integrateBeats_cons, happ]
        constructor
        · show [] ++ (integrateBeats bs [{ beat := 4, kind := TEKind.stop, value := 48 }] 120
              beat (t0 + (beat - lb) * (60 / 120))).stops = [{ time := 2, duration := 1/2 }]
          rw [hss]
          rfl
        · intro b hb
          show lookupBeat ((beat, t0 + (beat - lb) * (60 / 120)) ::
              (integrateBeats bs [{ beat := 4, kind := TEKind.stop, value := 48 }] 120
                beat (t0 + (beat - lb) * (60 / 120))).beatToTime) b
            = some (if 4 < b then b/2 + 1/2 else b/2)
          rcases List.mem_cons.mp hb with rfl | hb2
          · rw [lookupBeat_cons_self, ht1, if_neg (by linarith)]
          · have hne : beat ≠ b := by
              intro he
              rw [he] at hpw2
              exact lt_irrefl b (hpw2.1 b hb2)
            rw [lookupBeat_cons_ne _ _ _ _ hne]
            exact hsm b hb2

/-- C3, amended.  For any critical-beat sequence (strictly ascending, with
beat 4 present and pre-4 beats outside the 1e-6 matching epsilon — true of
every chart whose grid places events on exact beats), integrating with a
single 48-tick stop at beat 4 under constant tempo 120 yields
`stops[0].duration = 0.5` seconds (48 ticks = 1 beat, and one beat at 120
BPM is 0.5 s, not 1.0 s), and relative to the same integration without the
stop every beat strictly after 4 is later by exactly 0.5 s, while the beat
exactly at 4 keeps its pre-stop timestamp (the stop is applied after the
beat's time is recorded). -/
theorem stop_semantics_amended (beats : List ℚ) (h4 : (4:ℚ) ∈ beats)
    (hpw : beats.Pairwise (fun a b => a < b))
    (heps : ∀ b ∈ beats, b < 4 → b + 1/1000000 ≤ 4) :
    (integrateBeats beats [{ beat := 4, kind := TEKind.stop, value := 48 }] 120 0 0).stops
        = [{ time := 2, duration := 1/2 }]
    ∧ (∀ b ∈ beats,
        lookupBeat (integrateBeats beats [{ beat := 4, kind := TEKind.stop, value := 48 }]
            120 0 0).beatToTime b = some (if 4 < b then b/2 + 1/2 else b/2))
    ∧ (∀ b ∈ beats, lookupBeat (integrateBeats beats [] 120 0 0).beatToTime b = some (b/2)) := by
  obtain ⟨h1, h2⟩ := integrate_stop beats 0 0 (by norm_num) h4 hpw heps
  obtain ⟨h3, hc⟩ := integrate_const beats 0 0 0 (by norm_num)
  refine ⟨h1, h2, ?_⟩
  intro b hb
  have hb2 := hc b hb
  simpa using hb2

/-- C3 (amended), witness: the critical beats 0, 2, 4, 6 of `stopChart`. -/
theorem stop_semantics_amended_witness :
    ((4:ℚ) ∈ ([0, 2, 4, 6] : List ℚ)
      ∧ ([0, 2, 4, 6] : List ℚ).Pairwise (fun a b => a < b)
      ∧ (∀ b ∈ ([0, 2, 4, 6] : List ℚ), b < 4 → b + 1/1000000 ≤ 4))
    ∧ ((integrateBeats [0, 2, 4, 6] [{ beat := 4, kind := TEKind.stop, value := 48 }]
          120 0 0).stops = [{ time := 2, duration := 1/2 }]
      ∧ (∀ b ∈ ([0, 2, 4, 6] : List ℚ),
          lookupBeat (integrateBeats [0, 2, 4, 6]
              [{ beat := 4, kind := TEKind.stop, value := 48 }] 120 0 0).beatToTime b
            = some (if 4 < b then b/2 + 1/2 else b/2))
      ∧ (∀ b ∈ ([0, 2, 4, 6] : List ℚ),
          lookupBeat (integrateBeats [0, 2, 4, 6] [] 120 0 0).beatToTime b = some (b/2))) :=
  ⟨⟨of_decide_eq_true (by with_unfolding_all rfl),
    of_decide_eq_true (by with_unfolding_all rfl),
    of_decide_eq_true (by with_unfolding_all rfl)⟩,
   stop_semantics_amended [0, 2, 4, 6]
     (of_decide_eq_true (by with_unfolding_all rfl))
     (of_decide_eq_true (by with_unfolding_all rfl))
     (of_decide_eq_true (by with_unfolding_all rfl))⟩


/-- C5, amended.  During the grid scan a `"00"` step produces no event,
with exactly one exception: the channel is one of the four codes
`51,52,53,54` **and** the chart uses LNTYPE 2, in which case a
hold-termination marker with lane `channel - 51` is kept.  This exception
set does not coincide with the hold-opening channels: 56-59 (lanes 3-6)
never receive termination markers — so the LNTYPE-2 chart `#00056:1100`
compiles to no notes while the same pattern on channel 51 yields a hold
note — and 54, which cannot open any hold, emits lane-3 markers. -/
theorem null_symbol_amended (lnType : ℤ) (bpmDefs : List (String × ℚ))
    (stopDefs : List (String × ℤ)) (ch valStr : String) (beat : ℚ)
    (h : valStr = "00") :
    (scanStep lnType bpmDefs stopDefs ch valStr beat
      = if (ch = "51" ∨ ch = "52" ∨ ch = "53" ∨ ch = "54") ∧ lnType = 2
        then some (ScanEvent.chan
          { beat := beat, kind := CEKind.ln, lane := lane00 ch, valStr := valStr })
        else none)
    ∧ (parse lnChart51).notes = [{ time := 0, lane := 0, type := NoteType.ln, duration := 1 }]
    ∧ (parse lnChart56).notes = [] := by
  subst h
  refine ⟨?_, of_decide_eq_true (by with_unfolding_all rfl),
    of_decide_eq_true (by with_unfolding_all rfl)⟩
  unfold scanStep
  rw [if_pos rfl]
  have hiff : (isLNChannel ch = true) ↔
      (ch = "51" ∨ ch = "52" ∨ ch = "53" ∨ ch = "54") := by
    simp [isLNChannel]
    tauto
  by_cases hc : (ch = "51" ∨ ch = "52" ∨ ch = "53" ∨ ch = "54") ∧ lnType = 2
  · rw [if_pos hc, if_pos ⟨hiff.mpr hc.1, hc.2⟩]
  · rw [if_neg hc, if_neg (fun hcc => hc ⟨hiff.mp hcc.1, hcc.2⟩)]

/-- C5 (amended), witness: the null step on channel 51 under LNTYPE 2. -/
theorem null_symbol_amended_witness :
    ("00" = "00")
    ∧ ((scanStep 2 [] [] "51" "00" 0
        = if (("51" = "51" ∨ "51" = "52" ∨ "51" = "53" ∨ "51" = "54") ∧ (2:ℤ) = 2)
          then some (ScanEvent.chan
            { beat := 0, kind := CEKind.ln, lane := lane00 "51", valStr := "00" })
          else none)
      ∧ (parse lnChart51).notes = [{ time := 0, lane := 0, type := NoteType.ln, duration := 1 }]
      ∧ (parse lnChart56).notes = []) :=
  ⟨rfl, null_symbol_amended 2 [] [] "51" "00" 0 rfl⟩


/-- C1, counterexample.  A hold note at time 0 in lane 0: a first press at
`t = 0` judges its head (`COOL`, combo 1, score 100) but sets only
`isHolding`, leaving `hit` and `missed` false; a second press in the same
lane 10 ms later finds the very same note eligible again and applies a
second judgment, so Performance State changes twice on account of the one
note (combo 2, score 200) — refuting "at most one judgment is ever applied
to that note". -/
theorem checkHit_double_judgment_cex :
    (checkHit 0 0 ([holdNote0], initStats)).2.combo = 1
    ∧ (checkHit 0 0 ([holdNote0], initStats)).1
        = [{ holdNote0 with isHolding := true }]
    ∧ (checkHit (1/100) 0 (checkHit 0 0 ([holdNote0], initStats))).2.combo = 2
    ∧ (checkHit (1/100) 0 (checkHit 0 0 ([holdNote0], initStats))).2.score = 200 :=
  of_decide_eq_true (by with_unfolding_all rfl)

/-- C2, code evaluation at the failing input.  25 tap notes at time 0, one
tick at `t = 1` s, fresh stats: each note ages out and `triggerMiss` runs 25
times.  The 25th miss drives `hp` to 0, and its early fail return skips the
`score < 0` floor, leaving `score = -20` — the score invariant is violated
on the very mutation that ends the session. -/
theorem triggerMiss_fatal_negative_score :
    (updateNotes false 1 (List.replicate 25 tapNote0) initStats).2.score = -20
    ∧ (updateNotes false 1 (List.replicate 25 tapNote0) initStats).2.hp = 0
    ∧ ¬(0 ≤ (updateNotes false 1 (List.replicate 25 tapNote0) initStats).2.score) :=
  of_decide_eq_true (by with_unfolding_all rfl)

/-- C3, counterexample.  Compiling `stopChart` (tempo 120 throughout, one
stop of 48 ticks at beat 4, notes at beats 0, 2, 4, 6): the emitted stop
duration is 0.5 s, not 1.0 s, and against the no-stop compile the note at
beat 4 is unshifted (2 s in both) while the note at beat 6 is shifted by
0.5 s, not 1.0 s. -/
theorem stop_semantics_cex :
    (parse stopChart).stops.map (fun e => e.duration) = [1/2]
    ∧ ¬((parse stopChart).stops.map (fun e => e.duration) = [1])
    ∧ (parse stopChart).notes.map (fun n => n.time) = [0, 1, 2, 7/2]
    ∧ (parse noStopChart).notes.map (fun n => n.time) = [0, 1, 2, 3] :=
  of_decide_eq_true (by with_unfolding_all rfl)

/-- C4, counterexample.  Compiling `c4chart` (tempo 150, one tap at step 0
of a 4-step lane-0 channel): the chart duration — the final accumulated
seconds of the time-integration walk — is 0, not `(60/150)*4 = 1.6`,
because the walk only advances through the critical beats (here the single
beat 0), never to the end of the measure. -/
theorem endToEnd_duration_cex :
    (parse c4chart).duration = 0 ∧ ¬((parse c4chart).duration = 8/5) :=
  of_decide_eq_true (by with_unfolding_all rfl)

/-- C4, amended.  The note list is exactly the claimed singleton
`[{time: 0, lane: 0, kind: tap, duration: 0}]`, and the chart total
duration equals 0 (the final accumulated seconds of the integration walk,
which stops at the last critical beat). -/
theorem endToEnd_amended :
    (parse c4chart).notes = [{ time := 0, lane := 0, type := NoteType.tap, duration := 0 }]
    ∧ (parse c4chart).duration = 0 :=
  of_decide_eq_true (by with_unfolding_all rfl)

/-- C5, counterexample.  Channel `"56"` is the hold-lane channel of lane 3
(a non-null step opens a hold there), yet under LNTYPE 2 its `"00"` step is
dropped, while channel `"54"` — which cannot open any hold — has its `"00"`
kept as a lane-3 termination marker: the exception is not uniform over the
hold-lane channels.  Consequently the LNTYPE-2 chart `#00056:1100` compiles
to no notes at all, while the identical pattern on channel 51 yields a hold
note. -/
theorem null_symbol_cex :
    scanStep 2 [] [] "56" "11" 4
      = some (ScanEvent.chan { beat := 4, kind := CEKind.ln, lane := 3, valStr := "11" })
    ∧ scanStep 2 [] [] "56" "00" 4 = none
    ∧ scanStep 2 [] [] "54" "00" 4
      = some (ScanEvent.chan { beat := 4, kind := CEKind.ln, lane := 3, valStr := "00" })
    ∧ scanStep 2 [] [] "54" "11" 4 = none
    ∧ (parse lnChart51).notes = [{ time := 0, lane := 0, type := NoteType.ln, duration := 1 }]
    ∧ (parse lnChart56).notes = [] :=
  of_decide_eq_true (by with_unfolding_all rfl)

end My02
